import Mathlib

/-!
Verification of the ant-colony simulation (src/ant_simulation.py).

The program is embedded shallowly: the pheromone field is a function from
integer coordinates to rational intensities, machine floats are modelled by
exact rationals, and the ambient random generator is modelled by a stream
`us : ℕ → ℚ` of unit draws in [0,1]; the call random.uniform(0, total) at
stream position i is `us i * total`.  Positions are integer pairs (x, y),
and the field access pheromones[y][x] of the source is `ph (x, y)` here.
-/

namespace AntSim

/-- The module-level configuration constants of ant_simulation.py
(WIDTH, HEIGHT, ANT_COUNT, NEST, FOOD, EVAPORATION, DEPOSIT). -/
structure Config where
  WIDTH : ℤ
  HEIGHT : ℤ
  ANT_COUNT : ℤ
  NEST : ℤ × ℤ
  FOOD : ℤ × ℤ
  EVAPORATION : ℚ
  DEPOSIT : ℚ
deriving DecidableEq

/-- DIRECTIONS = [(-1, 0), (1, 0), (0, -1), (0, 1)]: up, down, left, right. -/
def DIRECTIONS : List (ℤ × ℤ) := [(-1, 0), (1, 0), (0, -1), (0, 1)]

/-- The pheromone field: intensity at coordinate (x, y);
the source's pheromones[y][x]. -/
abbrev Phero := ℤ × ℤ → ℚ

/-- The bounds check 0 <= nx < WIDTH and 0 <= ny < HEIGHT, as a Bool. -/
def inBoundsB (cfg : Config) (q : ℤ × ℤ) : Bool :=
  decide (0 ≤ q.1) && decide (q.1 < cfg.WIDTH) &&
    decide (0 ≤ q.2) && decide (q.2 < cfg.HEIGHT)

/-- The bounds check as a proposition. -/
def inBounds (cfg : Config) (q : ℤ × ℤ) : Prop :=
  0 ≤ q.1 ∧ q.1 < cfg.WIDTH ∧ 0 ≤ q.2 ∧ q.2 < cfg.HEIGHT

instance (cfg : Config) (q : ℤ × ℤ) : Decidable (inBounds cfg q) := by
  unfold inBounds; infer_instance

/-- An ant: integer id, position, and carrying flag (Ant.__init__ sets
pos = NEST and carrying = False; the clock passes idx = 0, 1, ...). -/
structure Ant where
  id : ℤ
  pos : ℤ × ℤ
  carrying : Bool
deriving DecidableEq

/-- Ant.__init__(idx): position NEST, not carrying. -/
def Ant.init (cfg : Config) (idx : ℤ) : Ant :=
  { id := idx, pos := cfg.NEST, carrying := false }

/-- The in-bounds orthogonal neighbors of p, in DIRECTIONS order
(the candidates list built by Ant.move). -/
def candidates (cfg : Config) (p : ℤ × ℤ) : List (ℤ × ℤ) :=
  (DIRECTIONS.map (fun d => (p.1 + d.1, p.2 + d.2))).filter
    (fun q => inBoundsB cfg q)

/-- Candidates paired with their weights 1.0 + pheromones[ny][nx]
(the zip(candidates, weights) of Ant.move). -/
def candWeights (cfg : Config) (ph : Phero) (p : ℤ × ℤ) :
    List ((ℤ × ℤ) × ℚ) :=
  (candidates cfg p).map (fun q => (q, 1 + ph q))

/-- The cumulative-sum selection loop of Ant.move: walk the candidate/weight
pairs keeping a running cumulative sum, and return the first candidate with
r ≤ cumulative; none if the loop falls through. -/
def select (r : ℚ) : List ((ℤ × ℤ) × ℚ) → ℚ → Option (ℤ × ℤ)
  | [], _ => none
  | cw :: rest, cum =>
      if r ≤ cum + cw.2 then some cw.1 else select r rest (cum + cw.2)

/-- Ant.move: weighted random choice among in-bounds neighbors.  u ∈ [0,1]
is the unit draw; r = u * total models random.uniform(0, total).  If no
candidate is selected (only possible when the loop body never runs), the
position is left unchanged. -/
def Ant.move (cfg : Config) (ph : Phero) (u : ℚ) (p : ℤ × ℤ) : ℤ × ℤ :=
  let cw := candWeights cfg ph p
  let total := (cw.map Prod.snd).sum
  match select (u * total) cw 0 with
  | some q => q
  | none => p

/-- pheromones[y][x] += DEPOSIT at coordinate p. -/
def deposit (cfg : Config) (p : ℤ × ℤ) (ph : Phero) : Phero :=
  fun q => if q = p then ph q + cfg.DEPOSIT else ph q

/-- Ant.step: the two-state behavior.  Searching (carrying = false): at FOOD
pick up (no move), otherwise move.  Returning (carrying = true): at NEST
drop (no move), otherwise move and deposit DEPOSIT at the new position.
Returns the new ant, the new field, and the next random-stream index
(a move consumes exactly one draw). -/
def Ant.step (cfg : Config) (us : ℕ → ℚ) (a : Ant) (ph : Phero) (i : ℕ) :
    Ant × Phero × ℕ :=
  if a.carrying = false then
    if a.pos = cfg.FOOD then ({ a with carrying := true }, ph, i)
    else ({ a with pos := Ant.move cfg ph (us i) a.pos }, ph, i + 1)
  else
    if a.pos = cfg.NEST then ({ a with carrying := false }, ph, i)
    else
      let p2 := Ant.move cfg ph (us i) a.pos
      ({ a with pos := p2 }, deposit cfg p2 ph, i + 1)

/-- evaporate: pheromones[y][x] *= (1 - EVAPORATION) for every grid cell. -/
def evaporate (cfg : Config) (ph : Phero) : Phero :=
  fun q => if inBoundsB cfg q then ph q * (1 - cfg.EVAPORATION) else ph q

/-- The clock's side state: the shared field, the two stats counters of
simulate, the random-stream position, and the trace of (before, after)
ant snapshots the clock compared (one pair per processed agent-step). -/
structure SimState where
  pheromones : Phero
  found_food : ℕ
  returned : ℕ
  rngIdx : ℕ
  trace : List (Ant × Ant)

/-- One iteration of the inner loop of simulate: record before = ant.pos,
run ant.step, and classify the two events exactly as the source does
(not ant.carrying and after == FOOD and before != FOOD; ant.carrying and
after == NEST and before != NEST). -/
def clockAnt (cfg : Config) (us : ℕ → ℚ) (a : Ant) (st : SimState) :
    Ant × SimState :=
  let res := Ant.step cfg us a st.pheromones st.rngIdx
  let a2 := res.1
  (a2,
    { pheromones := res.2.1,
      rngIdx := res.2.2,
      found_food :=
        if a2.carrying = false ∧ a2.pos = cfg.FOOD ∧ a.pos ≠ cfg.FOOD
        then st.found_food + 1 else st.found_food,
      returned :=
        if a2.carrying = true ∧ a2.pos = cfg.NEST ∧ a.pos ≠ cfg.NEST
        then st.returned + 1 else st.returned,
      trace := st.trace ++ [(a, a2)] })

/-- The inner loop of simulate: process the ants in list (id) order,
threading the shared state. -/
def runAnts (cfg : Config) (us : ℕ → ℚ) :
    List Ant → SimState → List Ant × SimState
  | [], st => ([], st)
  | a :: rest, st =>
      let r1 := clockAnt cfg us a st
      let r2 := runAnts cfg us rest r1.2
      (r1.1 :: r2.1, r2.2)

/-- One tick: all ants step in order, then the field evaporates once. -/
def tick (cfg : Config) (us : ℕ → ℚ) (s : List Ant × SimState) :
    List Ant × SimState :=
  let r := runAnts cfg us s.1 s.2
  (r.1, { r.2 with pheromones := evaporate cfg r.2.pheromones })

/-- The outer loop of simulate: n successive ticks. -/
def runSim (cfg : Config) (us : ℕ → ℚ) :
    ℕ → List Ant × SimState → List Ant × SimState
  | 0, s => s
  | n + 1, s => runSim cfg us n (tick cfg us s)

/-- The all-zero initial field and zeroed counters of simulate. -/
def initState : SimState :=
  { pheromones := fun _ => 0, found_food := 0, returned := 0,
    rngIdx := 0, trace := [] }

/-- ants = [Ant(i) for i in range(ANT_COUNT)] (an empty list when
ANT_COUNT ≤ 0, as Python's range gives). -/
def initAnts (cfg : Config) : List Ant :=
  (List.range cfg.ANT_COUNT.toNat).map (fun i => Ant.init cfg (Int.ofNat i))

/-- simulate(steps): build the zero field and the ants, run the tick loop. -/
def simulate (cfg : Config) (us : ℕ → ℚ) (steps : ℕ) :
    List Ant × SimState :=
  runSim cfg us steps (initAnts cfg, initState)

/-- Modelled from the spec: the number of (tick, agent) pairs at which the
agent transitioned from not-carrying to carrying (the spec's found_food
event), read off the clock's (before, after) trace. -/
def pickupEvents (tr : List (Ant × Ant)) : ℕ :=
  tr.countP (fun x => !x.1.carrying && x.2.carrying)

/-- Modelled from the spec: the number of (tick, agent) pairs at which the
agent transitioned from carrying to not-carrying (the spec's returned
event), read off the clock's (before, after) trace. -/
def dropEvents (tr : List (Ant × Ant)) : ℕ :=
  tr.countP (fun x => x.1.carrying && !x.2.carrying)

/-- Modelled from the spec: a configuration is valid when WIDTH and HEIGHT
are positive, ANT_COUNT is non-negative, EVAPORATION lies in [0,1), NEST
and FOOD are inside the grid, and the grid is not 1×1.  The source has no
such check; this definition only states what the spec demands. -/
def validConfig (cfg : Config) : Bool :=
  decide (0 < cfg.WIDTH) && decide (0 < cfg.HEIGHT) &&
    decide (0 ≤ cfg.ANT_COUNT) &&
    decide (0 ≤ cfg.EVAPORATION) && decide (cfg.EVAPORATION < 1) &&
    inBoundsB cfg cfg.NEST && inBoundsB cfg cfg.FOOD &&
    !(decide (cfg.WIDTH = 1) && decide (cfg.HEIGHT = 1))

/-- A field operation: a single-cell deposit or a field-wide evaporation
(the only two ways the program ever writes the field). -/
inductive FieldOp where
  | dep : ℤ × ℤ → FieldOp
  | evap : FieldOp

/-- Apply one field operation. -/
def applyOp (cfg : Config) (op : FieldOp) (ph : Phero) : Phero :=
  match op with
  | FieldOp.dep p => deposit cfg p ph
  | FieldOp.evap => evaporate cfg ph

/-- Apply a sequence of field operations, oldest first. -/
def applyOps (cfg : Config) (ops : List FieldOp) (ph : Phero) : Phero :=
  ops.foldl (fun f op => applyOp cfg op f) ph

/-- The grid cells as a finite set of coordinates. -/
def gridCells (cfg : Config) : Finset (ℤ × ℤ) :=
  Finset.Icc 0 (cfg.WIDTH - 1) ×ˢ Finset.Icc 0 (cfg.HEIGHT - 1)

/-- The total pheromone mass: the sum of the intensities of the grid cells. -/
def totalMass (cfg : Config) (ph : Phero) : ℚ :=
  Finset.sum (gridCells cfg) ph

/-- The configuration the source file declares: 20×20 grid, 100 ants,
NEST = (0,0), FOOD = (WIDTH-1, HEIGHT-1), EVAPORATION = 0.02,
DEPOSIT = 1.0. -/
def defaultConfig : Config :=
  { WIDTH := 20, HEIGHT := 20, ANT_COUNT := 100, NEST := (0, 0),
    FOOD := (19, 19), EVAPORATION := 1 / 50, DEPOSIT := 1 }

/-- A 2×1 corridor with one ant, used as a concrete scenario. -/
def corridorConfig : Config :=
  { WIDTH := 2, HEIGHT := 1, ANT_COUNT := 1, NEST := (0, 0),
    FOOD := (1, 0), EVAPORATION := 1 / 50, DEPOSIT := 1 }

/-- The degenerate 1×1 grid with one ant. -/
def tinyConfig : Config :=
  { WIDTH := 1, HEIGHT := 1, ANT_COUNT := 1, NEST := (0, 0),
    FOOD := (0, 0), EVAPORATION := 1 / 50, DEPOSIT := 1 }

/-- The constant-zero unit-draw stream. -/
def us0 : ℕ → ℚ := fun _ => 0

/-- The all-zero field. -/
def zeroField : Phero := fun _ => 0

/-- The constant-one field, used as a concrete nonzero field. -/
def oneField : Phero := fun _ => 1

/-! ### Basic lemmas about the movement primitives -/

lemma inBoundsB_eq_true (cfg : Config) (q : ℤ × ℤ) :
    inBoundsB cfg q = true ↔ inBounds cfg q := by
  simp only [inBoundsB, inBounds, Bool.and_eq_true, decide_eq_true_eq]
  tauto

lemma mem_candidates_inBounds {cfg : Config} {p q : ℤ × ℤ}
    (h : q ∈ candidates cfg p) : inBounds cfg q := by
  simp only [candidates, List.mem_filter] at h
  exact (inBoundsB_eq_true cfg q).1 h.2

lemma select_mem {r : ℚ} :
    ∀ (l : List ((ℤ × ℤ) × ℚ)) (c : ℚ) (q : ℤ × ℤ),
      select r l c = some q → q ∈ l.map Prod.fst := by
  intro l
  induction l with
  | nil => intro c q h; simp [select] at h
  | cons cw rest ih =>
      intro c q h
      simp only [select] at h
      by_cases hr : r ≤ c + cw.2
      · rw [if_pos hr] at h
        simp only [Option.some.injEq] at h
        simp [h]
      · rw [if_neg hr] at h
        simp only [List.map_cons, List.mem_cons]
        exact Or.inr (ih (c + cw.2) q h)

lemma select_isSome {r : ℚ} :
    ∀ (l : List ((ℤ × ℤ) × ℚ)) (c : ℚ), l ≠ [] →
      r ≤ c + (l.map Prod.snd).sum → (select r l c).isSome = true := by
  intro l
  induction l with
  | nil => intro c h _; exact absurd rfl h
  | cons cw rest ih =>
      intro c _ hr
      simp only [select]
      by_cases h1 : r ≤ c + cw.2
      · rw [if_pos h1]; rfl
      · rw [if_neg h1]
        rcases rest with _ | ⟨cw2, rest2⟩
        · exfalso
          simp only [List.map_cons, List.map_nil, List.sum_cons,
            List.sum_nil, add_zero] at hr
          exact h1 hr
        · apply ih _ (by simp)
          simp only [List.map_cons, List.sum_cons] at hr ⊢
          linarith

lemma candWeights_map_fst (cfg : Config) (ph : Phero) (p : ℤ × ℤ) :
    (candWeights cfg ph p).map Prod.fst = candidates cfg p := by
  simp only [candWeights, List.map_map]
  exact List.map_id _

lemma move_mem_or_eq (cfg : Config) (ph : Phero) (u : ℚ) (p : ℤ × ℤ) :
    Ant.move cfg ph u p ∈ candidates cfg p ∨ Ant.move cfg ph u p = p := by
  unfold Ant.move
  simp only
  rcases h : select (u * ((candWeights cfg ph p).map Prod.snd).sum)
      (candWeights cfg ph p) 0 with _ | q
  · right; rfl
  · left
    show q ∈ candidates cfg p
    have hm := select_mem (candWeights cfg ph p) 0 q h
    rw [candWeights_map_fst] at hm
    exact hm

lemma move_inBounds {cfg : Config} {ph : Phero} {u : ℚ} {p : ℤ × ℤ}
    (hp : inBounds cfg p) : inBounds cfg (Ant.move cfg ph u p) := by
  rcases move_mem_or_eq cfg ph u p with h | h
  · exact mem_candidates_inBounds h
  · rwa [h]

lemma candidates_ne_nil {cfg : Config} {p : ℤ × ℤ} (hp : inBounds cfg p)
    (h2 : 2 ≤ cfg.WIDTH ∨ 2 ≤ cfg.HEIGHT) : candidates cfg p ≠ [] := by
  obtain ⟨hx0, hxW, hy0, hyH⟩ := hp
  have hmem : ∀ d ∈ DIRECTIONS, inBounds cfg (p.1 + d.1, p.2 + d.2) →
      (p.1 + d.1, p.2 + d.2) ∈ candidates cfg p := by
    intro d hd hb
    simp only [candidates, List.mem_filter, List.mem_map]
    exact ⟨⟨d, hd, rfl⟩, (inBoundsB_eq_true cfg _).2 hb⟩
  rcases h2 with hW | hH
  · rcases lt_or_ge (p.1 + 1) cfg.WIDTH with h | h
    · exact List.ne_nil_of_mem
        (hmem (1, 0) (by simp [DIRECTIONS]) ⟨by omega, by omega, by omega, by omega⟩)
    · exact List.ne_nil_of_mem
        (hmem (-1, 0) (by simp [DIRECTIONS]) ⟨by omega, by omega, by omega, by omega⟩)
  · rcases lt_or_ge (p.2 + 1) cfg.HEIGHT with h | h
    · exact List.ne_nil_of_mem
        (hmem (0, 1) (by simp [DIRECTIONS]) ⟨by omega, by omega, by omega, by omega⟩)
    · exact List.ne_nil_of_mem
        (hmem (0, -1) (by simp [DIRECTIONS]) ⟨by omega, by omega, by omega, by omega⟩)

/-! ### Lemmas about Ant.step and the pheromone field -/

lemma step_pheromones (cfg : Config) (us : ℕ → ℚ) (a : Ant) (ph : Phero)
    (i : ℕ) (q : ℤ × ℤ) :
    (Ant.step cfg us a ph i).2.1 q =
      if a.carrying = true ∧ a.pos ≠ cfg.NEST ∧ q = (Ant.step cfg us a ph i).1.pos
      then ph q + cfg.DEPOSIT else ph q := by
  unfold Ant.step
  rcases hb : a.carrying with _ | _
  · by_cases hf : a.pos = cfg.FOOD <;> simp [hf]
  · by_cases hn : a.pos = cfg.NEST <;> simp [hn, deposit]

lemma step_pos_inBounds {cfg : Config} (us : ℕ → ℚ) {a : Ant} (ph : Phero)
    (i : ℕ) (hp : inBounds cfg a.pos) :
    inBounds cfg (Ant.step cfg us a ph i).1.pos := by
  unfold Ant.step
  rcases hb : a.carrying with _ | _
  · by_cases hf : a.pos = cfg.FOOD
    · simpa [hf] using hp
    · simpa [hf] using move_inBounds hp
  · by_cases hn : a.pos = cfg.NEST
    · simpa [hn] using hp
    · simpa [hn] using move_inBounds hp

lemma mem_gridCells {cfg : Config} {q : ℤ × ℤ} :
    q ∈ gridCells cfg ↔ inBounds cfg q := by
  simp only [gridCells, Finset.mem_product, Finset.mem_Icc, inBounds]
  omega

lemma totalMass_deposit (cfg : Config) (p : ℤ × ℤ) (ph : Phero)
    (hD : 0 ≤ cfg.DEPOSIT) :
    totalMass cfg (deposit cfg p ph) ≤ totalMass cfg ph + cfg.DEPOSIT := by
  unfold totalMass deposit
  have hsplit : ∀ q ∈ gridCells cfg,
      (if q = p then ph q + cfg.DEPOSIT else ph q)
        = ph q + (if q = p then cfg.DEPOSIT else 0) := by
    intro q _
    split <;> simp
  rw [Finset.sum_congr rfl hsplit, Finset.sum_add_distrib,
    Finset.sum_ite_eq' (gridCells cfg) p (fun _ => cfg.DEPOSIT)]
  split <;> simp [hD]

lemma totalMass_evaporate (cfg : Config) (ph : Phero) :
    totalMass cfg (evaporate cfg ph)
      = (1 - cfg.EVAPORATION) * totalMass cfg ph := by
  unfold totalMass evaporate
  rw [Finset.mul_sum]
  refine Finset.sum_congr rfl ?_
  intro q hq
  rw [if_pos ((inBoundsB_eq_true cfg q).2 (mem_gridCells.1 hq))]
  ring

lemma totalMass_step (cfg : Config) (us : ℕ → ℚ) (a : Ant) (ph : Phero)
    (i : ℕ) (hD : 0 ≤ cfg.DEPOSIT) :
    totalMass cfg (Ant.step cfg us a ph i).2.1
      ≤ totalMass cfg ph + cfg.DEPOSIT := by
  unfold Ant.step
  rcases hb : a.carrying with _ | _
  · by_cases hf : a.pos = cfg.FOOD <;> simp [hf] <;> linarith
  · by_cases hn : a.pos = cfg.NEST
    · simp [hn]; linarith
    · simpa [hn] using
        totalMass_deposit cfg (Ant.move cfg ph (us i) a.pos) ph hD

/-! ### Lemmas about the clock loops -/

lemma clockAnt_fst (cfg : Config) (us : ℕ → ℚ) (a : Ant) (st : SimState) :
    (clockAnt cfg us a st).1 = (Ant.step cfg us a st.pheromones st.rngIdx).1 :=
  rfl

lemma clockAnt_pheromones (cfg : Config) (us : ℕ → ℚ) (a : Ant) (st : SimState) :
    (clockAnt cfg us a st).2.pheromones
      = (Ant.step cfg us a st.pheromones st.rngIdx).2.1 :=
  rfl

lemma runAnts_length (cfg : Config) (us : ℕ → ℚ) (l : List Ant) :
    ∀ st : SimState, ((runAnts cfg us l st).1).length = l.length := by
  induction l with
  | nil => intro st; rfl
  | cons a rest ih => intro st; simp [runAnts, ih]

lemma runAnts_inBounds (cfg : Config) (us : ℕ → ℚ) (l : List Ant) :
    ∀ st : SimState, (∀ a ∈ l, inBounds cfg a.pos) →
      ∀ a ∈ (runAnts cfg us l st).1, inBounds cfg a.pos := by
  induction l with
  | nil => intro st _ a ha; simp [runAnts] at ha
  | cons a rest ih =>
      intro st hl b hb
      simp only [runAnts, List.mem_cons] at hb
      rcases hb with rfl | hb
      · rw [clockAnt_fst]
        exact step_pos_inBounds us st.pheromones st.rngIdx
          (hl a (List.mem_cons_self a rest))
      · exact ih _ (fun x hx => hl x (List.mem_cons_of_mem _ hx)) b hb

lemma runAnts_mass (cfg : Config) (us : ℕ → ℚ) (hD : 0 ≤ cfg.DEPOSIT)
    (l : List Ant) : ∀ st : SimState,
    totalMass cfg (runAnts cfg us l st).2.pheromones
      ≤ totalMass cfg st.pheromones + (l.length : ℚ) * cfg.DEPOSIT := by
  induction l with
  | nil => intro st; simp [runAnts]
  | cons a rest ih =>
      intro st
      have h1 : totalMass cfg (clockAnt cfg us a st).2.pheromones
          ≤ totalMass cfg st.pheromones + cfg.DEPOSIT := by
        rw [clockAnt_pheromones]
        exact totalMass_step cfg us a st.pheromones st.rngIdx hD
      have h2 := ih (clockAnt cfg us a st).2
      simp only [runAnts, List.length_cons]
      push_cast
      linarith

lemma runSim_length (cfg : Config) (us : ℕ → ℚ) (n : ℕ) :
    ∀ s : List Ant × SimState,
      ((runSim cfg us n s).1).length = s.1.length := by
  induction n with
  | zero => intro s; rfl
  | succ n ih =>
      intro s
      rw [runSim, ih]
      exact runAnts_length cfg us s.1 s.2

lemma runSim_inBounds (cfg : Config) (us : ℕ → ℚ) (n : ℕ) :
    ∀ s : List Ant × SimState, (∀ a ∈ s.1, inBounds cfg a.pos) →
      ∀ a ∈ (runSim cfg us n s).1, inBounds cfg a.pos := by
  induction n with
  | zero => intro s h; exact h
  | succ n ih =>
      intro s h
      rw [runSim]
      exact ih _ (runAnts_inBounds cfg us s.1 s.2 h)

lemma tick_length (cfg : Config) (us : ℕ → ℚ) (s : List Ant × SimState) :
    ((tick cfg us s).1).length = s.1.length := by
  unfold tick
  exact runAnts_length cfg us s.1 s.2

lemma tick_pheromones (cfg : Config) (us : ℕ → ℚ) (s : List Ant × SimState) :
    (tick cfg us s).2.pheromones
      = evaporate cfg (runAnts cfg us s.1 s.2).2.pheromones :=
  rfl

lemma runSim_mass (cfg : Config) (us : ℕ → ℚ) (hD : 0 ≤ cfg.DEPOSIT)
    (he0 : 0 < cfg.EVAPORATION) (he1 : cfg.EVAPORATION ≤ 1) (n : ℕ) :
    ∀ s : List Ant × SimState, s.1.length = cfg.ANT_COUNT.toNat →
      totalMass cfg s.2.pheromones
        ≤ (cfg.ANT_COUNT.toNat : ℚ) * cfg.DEPOSIT
            * (1 - cfg.EVAPORATION) / cfg.EVAPORATION →
      totalMass cfg (runSim cfg us n s).2.pheromones
        ≤ (cfg.ANT_COUNT.toNat : ℚ) * cfg.DEPOSIT
            * (1 - cfg.EVAPORATION) / cfg.EVAPORATION := by
  set A : ℚ := (cfg.ANT_COUNT.toNat : ℚ) with hA
  set e : ℚ := cfg.EVAPORATION with he
  set D : ℚ := cfg.DEPOSIT with hDdef
  have hAnn : 0 ≤ A := by positivity
  have key : (1 - e) * (A * D * (1 - e) / e + A * D) = A * D * (1 - e) / e := by
    field_simp
    ring
  induction n with
  | zero => intro s _ h; exact h
  | succ n ih =>
      intro s hlen hmass
      rw [runSim]
      apply ih
      · rw [tick_length]; exact hlen
      · rw [tick_pheromones, totalMass_evaporate]
        have h1 := runAnts_mass cfg us hD s.1 s.2
        rw [hlen] at h1
        have h2 : totalMass cfg (runAnts cfg us s.1 s.2).2.pheromones
            ≤ A * D * (1 - e) / e + A * D := by
          calc totalMass cfg (runAnts cfg us s.1 s.2).2.pheromones
              ≤ totalMass cfg s.2.pheromones + A * D := h1
            _ ≤ A * D * (1 - e) / e + A * D := by linarith
        calc (1 - e) * totalMass cfg (runAnts cfg us s.1 s.2).2.pheromones
            ≤ (1 - e) * (A * D * (1 - e) / e + A * D) :=
              mul_le_mul_of_nonneg_left h2 (by linarith)
          _ = A * D * (1 - e) / e := key

/-! ### The claims -/

/-- C2 (counterexample): the 1×1 single-ant configuration is invalid by the
spec's validity rules, yet simulate constructs its agent and runs three full
ticks on it (the carrying flag has toggled three times), so the program does
not fail fast and the run proceeds. -/
theorem invalid_config_runs :
    validConfig tinyConfig = false ∧
    (simulate tinyConfig us0 3).1 = [{ id := 0, pos := (0, 0), carrying := true }] := by
  constructor
  · simp only [validConfig, tinyConfig, inBoundsB]
    norm_num
  · simp [simulate, runSim, tick, runAnts, clockAnt, Ant.step, Ant.move,
      candWeights, candidates, DIRECTIONS, inBoundsB, select, deposit,
      evaporate, initAnts, initState, us0, tinyConfig, Ant.init, Prod.ext_iff]

/-- C2 (amended): the program performs no configuration validation at all:
for every configuration, valid or invalid, simulate constructs the full
agent list (ANT_COUNT agents) and runs all requested ticks to completion. -/
theorem simulate_no_validation (cfg : Config) (us : ℕ → ℚ) (steps : ℕ) :
    ((simulate cfg us steps).1).length = cfg.ANT_COUNT.toNat := by
  unfold simulate
  rw [runSim_length, initAnts, List.length_map, List.length_range]

/-- C3: starting every agent from NEST (assumed in bounds), after any number
of ticks every agent's position satisfies 0 ≤ x < WIDTH and 0 ≤ y < HEIGHT:
Ant.move only ever assigns an in-bounds orthogonal neighbor, and the
transition branches of Ant.step do not move the agent. -/
theorem simulate_pos_inBounds (cfg : Config) (us : ℕ → ℚ) (steps : ℕ)
    (h : inBounds cfg cfg.NEST) :
    ∀ a ∈ (simulate cfg us steps).1, inBounds cfg a.pos := by
  apply runSim_inBounds
  intro a ha
  simp only [initAnts, List.mem_map, List.mem_range] at ha
  obtain ⟨i, _, rfl⟩ := ha
  exact h

theorem simulate_pos_inBounds_witness :
    inBounds defaultConfig defaultConfig.NEST ∧
    ∀ a ∈ (simulate defaultConfig us0 1).1, inBounds defaultConfig a.pos :=
  ⟨by decide, simulate_pos_inBounds defaultConfig us0 1 (by decide)⟩

/-- C4: starting from the all-zero field, every cell's intensity stays ≥ 0
under every sequence of deposits and evaporations: a deposit adds the
non-negative DEPOSIT to one cell, and an evaporation multiplies every grid
cell by (1 − EVAPORATION) with EVAPORATION in [0,1). -/
theorem field_nonneg (cfg : Config) (hD : 0 ≤ cfg.DEPOSIT)
    (he0 : 0 ≤ cfg.EVAPORATION) (he1 : cfg.EVAPORATION < 1)
    (ops : List FieldOp) (q : ℤ × ℤ) :
    0 ≤ applyOps cfg ops zeroField q := by
  have main : ∀ (l : List FieldOp) (ph : Phero), (∀ r, 0 ≤ ph r) →
      ∀ r, 0 ≤ applyOps cfg l ph r := by
    intro l
    induction l with
    | nil => intro ph h r; exact h r
    | cons op rest ih =>
        intro ph h r
        simp only [applyOps, List.foldl_cons] at ih ⊢
        apply ih
        intro s
        cases op with
        | dep p =>
            simp only [applyOp, deposit]
            split
            · have := h s; linarith
            · exact h s
        | evap =>
            simp only [applyOp, evaporate]
            split
            · exact mul_nonneg (h s) (by linarith)
            · exact h s
  exact main ops zeroField (fun r => le_refl 0) q

theorem field_nonneg_witness :
    0 ≤ defaultConfig.DEPOSIT ∧ 0 ≤ defaultConfig.EVAPORATION ∧
    defaultConfig.EVAPORATION < 1 ∧
    0 ≤ applyOps defaultConfig [FieldOp.dep (0, 0), FieldOp.evap] zeroField (0, 0) :=
  ⟨by norm_num [defaultConfig], by norm_num [defaultConfig],
    by norm_num [defaultConfig],
    field_nonneg defaultConfig (by norm_num [defaultConfig])
      (by norm_num [defaultConfig]) (by norm_num [defaultConfig])
      [FieldOp.dep (0, 0), FieldOp.evap] (0, 0)⟩

/-- C5: from an in-bounds position on a grid with WIDTH ≥ 2 or HEIGHT ≥ 2,
with a non-negative field and a unit draw u in [0,1], the cumulative-sum
weighted draw of Ant.move always selects a candidate: the position is set to
some in-bounds neighbor and the fall-through of the selection loop is
unreachable. -/
theorem move_selects_candidate (cfg : Config) (ph : Phero) (u : ℚ)
    (p : ℤ × ℤ) (hp : inBounds cfg p)
    (h2 : 2 ≤ cfg.WIDTH ∨ 2 ≤ cfg.HEIGHT)
    (hph : ∀ q, 0 ≤ ph q) (hu0 : 0 ≤ u) (hu1 : u ≤ 1) :
    ∃ q ∈ candidates cfg p, Ant.move cfg ph u p = q := by
  have hne : candidates cfg p ≠ [] := candidates_ne_nil hp h2
  have hcw : candWeights cfg ph p ≠ [] := by
    simp only [candWeights, ne_eq, List.map_eq_nil_iff]
    exact hne
  have htot : 0 ≤ ((candWeights cfg ph p).map Prod.snd).sum := by
    apply List.sum_nonneg
    intro x hx
    simp only [candWeights, List.map_map, List.mem_map] at hx
    obtain ⟨q, _, rfl⟩ := hx
    have := hph q
    simp only [Function.comp]
    linarith
  have hr : u * ((candWeights cfg ph p).map Prod.snd).sum
      ≤ 0 + ((candWeights cfg ph p).map Prod.snd).sum := by
    rw [zero_add]
    exact mul_le_of_le_one_left htot hu1
  have hsome := select_isSome (candWeights cfg ph p) 0 hcw hr
  rw [Option.isSome_iff_exists] at hsome
  obtain ⟨q, hq⟩ := hsome
  refine ⟨q, ?_, ?_⟩
  · have hm := select_mem (candWeights cfg ph p) 0 q hq
    rwa [candWeights_map_fst] at hm
  · unfold Ant.move
    simp only
    rw [hq]

theorem move_selects_candidate_witness :
    inBounds defaultConfig (0, 0) ∧
    ∃ q ∈ candidates defaultConfig (0, 0),
      Ant.move defaultConfig zeroField 0 (0, 0) = q :=
  ⟨by decide,
    move_selects_candidate defaultConfig zeroField 0 (0, 0) (by decide)
      (Or.inl (by decide)) (fun q => le_refl 0) (le_refl 0) (by norm_num)⟩

/-- C6: the pheromone frame property of Ant.step: a Searching step and the
drop transition of a Returning agent at NEST change no cell; only the
Returning-and-moving branch changes the field, adding exactly DEPOSIT to
the single cell at the agent's new position and nothing elsewhere. -/
theorem step_frame (cfg : Config) (us : ℕ → ℚ) (a : Ant) (ph : Phero)
    (i : ℕ) (q : ℤ × ℤ) :
    (Ant.step cfg us a ph i).2.1 q =
      if a.carrying = true ∧ a.pos ≠ cfg.NEST ∧ q = (Ant.step cfg us a ph i).1.pos
      then ph q + cfg.DEPOSIT else ph q :=
  step_pheromones cfg us a ph i q

/-- C8: the whole simulation is a deterministic function of the
configuration, the step count and the stream of uniform draws: two runs
with identical draw sequences produce identical final agents, event
counters and field contents. -/
theorem simulate_deterministic (cfg : Config) (steps : ℕ) (us vs : ℕ → ℚ)
    (h : ∀ i, us i = vs i) :
    simulate cfg us steps = simulate cfg vs steps := by
  have hev : us = vs := funext h
  rw [hev]

theorem simulate_deterministic_witness :
    (∀ i : ℕ, us0 i = us0 i) ∧
    simulate defaultConfig us0 2 = simulate defaultConfig us0 2 :=
  ⟨fun _ => rfl, simulate_deterministic defaultConfig 2 us0 us0 (fun _ => rfl)⟩

/-- C1 (counterexample): on a 2×1 corridor with one ant and one tick, the
ant moves from NEST onto FOOD while still Searching; the clock increments
found_food in that tick (the condition not carrying ∧ after = FOOD ∧
before ≠ FOOD holds on arrival), yet no not-carrying-to-carrying transition
has occurred: the pickup would only happen on the following tick.  So
found_food does not equal the number of pickup transitions. -/
theorem found_food_not_transition_count :
    (simulate corridorConfig us0 1).2.found_food = 1 ∧
    pickupEvents (simulate corridorConfig us0 1).2.trace = 0 := by
  constructor <;>
    simp [simulate, runSim, tick, runAnts, clockAnt, Ant.step, Ant.move,
      candWeights, candidates, DIRECTIONS, inBoundsB, select, deposit,
      evaporate, initAnts, initState, us0, corridorConfig, Ant.init,
      pickupEvents, Prod.ext_iff]

/-- C1 (amended): the clock's counters count arrivals, not transitions:
processing one agent increments found_food exactly when a Searching agent
not at FOOD moves onto FOOD this tick (one tick before the pickup
transition), and increments returned exactly when a Returning agent not at
NEST moves onto NEST this tick (one tick before the drop transition); at
most one increment of each counter per agent per tick. -/
theorem found_food_counts_arrivals (cfg : Config) (us : ℕ → ℚ) (a : Ant)
    (st : SimState) (h : cfg.NEST ≠ cfg.FOOD) :
    (clockAnt cfg us a st).2.found_food = st.found_food +
      (if a.carrying = false ∧ a.pos ≠ cfg.FOOD ∧
          Ant.move cfg st.pheromones (us st.rngIdx) a.pos = cfg.FOOD
        then 1 else 0) ∧
    (clockAnt cfg us a st).2.returned = st.returned +
      (if a.carrying = true ∧ a.pos ≠ cfg.NEST ∧
          Ant.move cfg st.pheromones (us st.rngIdx) a.pos = cfg.NEST
        then 1 else 0) := by
  unfold clockAnt Ant.step
  rcases hb : a.carrying with _ | _
  · by_cases hf : a.pos = cfg.FOOD
    · simp [hf, h, Ne.symm h]
    · constructor
      · by_cases hm : Ant.move cfg st.pheromones (us st.rngIdx) a.pos = cfg.FOOD <;>
          simp [hf, hm]
      · simp [hf]
  · by_cases hn : a.pos = cfg.NEST
    · simp [hn, h, Ne.symm h]
    · constructor
      · simp [hn]
      · by_cases hm : Ant.move cfg st.pheromones (us st.rngIdx) a.pos = cfg.NEST <;>
          simp [hn, hm]

theorem found_food_counts_arrivals_witness :
    defaultConfig.NEST ≠ defaultConfig.FOOD ∧
    ((clockAnt defaultConfig us0 (Ant.init defaultConfig 0) initState).2.found_food
        = initState.found_food +
          (if (Ant.init defaultConfig 0).carrying = false ∧
              (Ant.init defaultConfig 0).pos ≠ defaultConfig.FOOD ∧
              Ant.move defaultConfig initState.pheromones
                (us0 initState.rngIdx) (Ant.init defaultConfig 0).pos
                = defaultConfig.FOOD
            then 1 else 0) ∧
      (clockAnt defaultConfig us0 (Ant.init defaultConfig 0) initState).2.returned
        = initState.returned +
          (if (Ant.init defaultConfig 0).carrying = true ∧
              (Ant.init defaultConfig 0).pos ≠ defaultConfig.NEST ∧
              Ant.move defaultConfig initState.pheromones
                (us0 initState.rngIdx) (Ant.init defaultConfig 0).pos
                = defaultConfig.NEST
            then 1 else 0)) :=
  ⟨by decide,
    found_food_counts_arrivals defaultConfig us0 (Ant.init defaultConfig 0)
      initState (by decide)⟩

/-- C7 (counterexample): a cell whose intensity is zero (as every cell is at
startup) does not strictly decrease under evaporation even though
EVAPORATION = 0.02 > 0 and no deposit occurred: it stays exactly zero. -/
theorem evaporate_zero_cell_not_decreasing :
    0 < defaultConfig.EVAPORATION ∧
    evaporate defaultConfig zeroField (0, 0) = zeroField (0, 0) := by
  constructor
  · norm_num [defaultConfig]
  · simp [evaporate, zeroField]

/-- C7 (amended): absent any deposit between two consecutive evaporations of
a grid cell, its intensity strictly decreases when EVAPORATION > 0 and the
intensity is positive; it stays equal when EVAPORATION = 0, and also when
the intensity is zero. -/
theorem evaporate_monotone (cfg : Config) (ph : Phero) (q : ℤ × ℤ)
    (hq : inBounds cfg q) :
    (0 < cfg.EVAPORATION → 0 < ph q → evaporate cfg ph q < ph q) ∧
    (cfg.EVAPORATION = 0 → evaporate cfg ph q = ph q) ∧
    (ph q = 0 → evaporate cfg ph q = ph q) := by
  have hb : inBoundsB cfg q = true := (inBoundsB_eq_true cfg q).2 hq
  simp only [evaporate, hb, if_true]
  refine ⟨?_, ?_, ?_⟩
  · intro he hv
    nlinarith
  · intro he
    rw [he]
    ring
  · intro hv
    rw [hv]
    ring

theorem evaporate_monotone_witness :
    inBounds defaultConfig (0, 0) ∧
    ((0 < defaultConfig.EVAPORATION → 0 < oneField (0, 0) →
        evaporate defaultConfig oneField (0, 0) < oneField (0, 0)) ∧
      (defaultConfig.EVAPORATION = 0 →
        evaporate defaultConfig oneField (0, 0) = oneField (0, 0)) ∧
      (oneField (0, 0) = 0 →
        evaporate defaultConfig oneField (0, 0) = oneField (0, 0))) :=
  ⟨by decide, evaporate_monotone defaultConfig oneField (0, 0) (by decide)⟩

/-- C9: starting from the all-zero field, for EVAPORATION in (0,1] and
DEPOSIT ≥ 0, after every tick's closing evaporation the total pheromone
mass is at most ANT_COUNT · DEPOSIT · (1 − EVAPORATION) / EVAPORATION:
each tick adds at most DEPOSIT per agent before the uniform multiplicative
decay. -/
theorem totalMass_bounded (cfg : Config) (us : ℕ → ℚ) (steps : ℕ)
    (hD : 0 ≤ cfg.DEPOSIT) (he0 : 0 < cfg.EVAPORATION)
    (he1 : cfg.EVAPORATION ≤ 1) :
    totalMass cfg (simulate cfg us steps).2.pheromones
      ≤ (cfg.ANT_COUNT.toNat : ℚ) * cfg.DEPOSIT
          * (1 - cfg.EVAPORATION) / cfg.EVAPORATION := by
  unfold simulate
  apply runSim_mass cfg us hD he0 he1 steps
  · rw [initAnts, List.length_map, List.length_range]
  · have hzero : totalMass cfg initState.pheromones = 0 := by
      unfold totalMass initState
      exact Finset.sum_const_zero
    rw [hzero]
    have hA : (0:ℚ) ≤ (cfg.ANT_COUNT.toNat : ℚ) := by positivity
    apply div_nonneg _ he0.le
    apply mul_nonneg (mul_nonneg hA hD)
    linarith

theorem totalMass_bounded_witness :
    0 ≤ defaultConfig.DEPOSIT ∧ 0 < defaultConfig.EVAPORATION ∧
    defaultConfig.EVAPORATION ≤ 1 ∧
    totalMass defaultConfig (simulate defaultConfig us0 0).2.pheromones
      ≤ (defaultConfig.ANT_COUNT.toNat : ℚ) * defaultConfig.DEPOSIT
          * (1 - defaultConfig.EVAPORATION) / defaultConfig.EVAPORATION :=
  ⟨by norm_num [defaultConfig], by norm_num [defaultConfig],
    by norm_num [defaultConfig],
    totalMass_bounded defaultConfig us0 0 (by norm_num [defaultConfig])
      (by norm_num [defaultConfig]) (by norm_num [defaultConfig])⟩

/-- C10: at an in-bounds position, the candidate list is empty exactly when
the grid is 1×1; and with an empty candidate list Ant.move completes
normally (total = 0, the draw is 0, the selection loop never runs) and
leaves the position unchanged — the degenerate 1×1 grid runs silently with
the agent frozen rather than being rejected. -/
theorem move_no_candidates_fixed (cfg : Config) (ph : Phero) (u : ℚ)
    (p : ℤ × ℤ) (hp : inBounds cfg p) :
    (candidates cfg p = [] ↔ (cfg.WIDTH = 1 ∧ cfg.HEIGHT = 1)) ∧
    (candidates cfg p = [] → Ant.move cfg ph u p = p) := by
  constructor
  · constructor
    · intro hnil
      by_contra hcon
      have hbounds := hp
      obtain ⟨hx0, hxW, hy0, hyH⟩ := hbounds
      have h2 : 2 ≤ cfg.WIDTH ∨ 2 ≤ cfg.HEIGHT := by omega
      exact candidates_ne_nil hp h2 hnil
    · rintro ⟨hW, hH⟩
      obtain ⟨hx0, hxW, hy0, hyH⟩ := hp
      have hx : p.1 = 0 := by omega
      have hy : p.2 = 0 := by omega
      simp only [candidates, DIRECTIONS, List.map_cons, List.map_nil]
      rw [List.filter_eq_nil_iff]
      intro q hq
      simp only [List.mem_cons, List.not_mem_nil, or_false] at hq
      rcases hq with rfl | rfl | rfl | rfl <;>
        simp [inBoundsB, hx, hy, hW, hH]
  · intro hnil
    unfold Ant.move
    simp [candWeights, hnil, select]

theorem move_no_candidates_fixed_witness :
    inBounds tinyConfig (0, 0) ∧
    ((candidates tinyConfig (0, 0) = [] ↔
        (tinyConfig.WIDTH = 1 ∧ tinyConfig.HEIGHT = 1)) ∧
      (candidates tinyConfig (0, 0) = [] →
        Ant.move tinyConfig zeroField 0 (0, 0) = (0, 0))) :=
  ⟨by decide, move_no_candidates_fixed tinyConfig zeroField 0 (0, 0) (by decide)⟩

end AntSim
